import Mathlib

/-!
Verification of the EFILTER query-language core (tokenizer, parser, AST,
solver) against its natural-language specification.  The repository ships
only the conformance tests for this core; the core itself is therefore
modelled here from the specification, and the models are checked both
against the specification's general statements and against the concrete
behaviours the conformance tests demand.
-/

namespace EFilter

/-- Modelled from the spec: the universe of runtime values the solver
manipulates.  The spec's data model needs literals (integers, floats,
strings), booleans, ordered tuples (list literals), nested key/value
containers (the data contexts queries run against), superpositions
(zero or more candidate values behind one logical slot), and the
"no value" sentinel produced by failed field resolution.  Floats are
modelled exactly as rationals. -/
inductive Value where
  | null
  | bool (b : Bool)
  | int (n : Int)
  | float (q : Rat)
  | str (s : String)
  | tuple (vs : List Value)
  | dict (fields : List (String × Value))
  | sup (vs : List Value)

/-- Modelled from the spec: truthiness of a value, used by the boolean
connectives and the quantifiers.  The "no value" sentinel is falsy;
numbers are truthy iff nonzero, strings and collections iff nonempty. -/
def truthy : Value → Bool
  | Value.null => false
  | Value.bool b => b
  | Value.int n => n != 0
  | Value.float q => q != 0
  | Value.str s => s != ""
  | Value.tuple vs => !vs.isEmpty
  | Value.dict fs => !fs.isEmpty
  | Value.sup vs => !vs.isEmpty

mutual

/-- Modelled from the spec: type-aware equality used by `Equivalence`
and `Membership`.  Numeric operands compare by numeric value regardless
of int/float representation; tuples, containers and superpositions
compare pointwise. -/
def valueEq : Value → Value → Bool
  | Value.null, Value.null => true
  | Value.bool x, Value.bool y => x == y
  | Value.int x, Value.int y => x == y
  | Value.int x, Value.float y => (x : Rat) == y
  | Value.float x, Value.int y => x == (y : Rat)
  | Value.float x, Value.float y => x == y
  | Value.str x, Value.str y => x == y
  | Value.tuple xs, Value.tuple ys => valueListEq xs ys
  | Value.dict xs, Value.dict ys => valueFieldsEq xs ys
  | Value.sup xs, Value.sup ys => valueListEq xs ys
  | _, _ => false

/-- Modelled from the spec: pointwise equality of value sequences. -/
def valueListEq : List Value → List Value → Bool
  | [], [] => true
  | x :: xs, y :: ys => valueEq x y && valueListEq xs ys
  | _, _ => false

/-- Modelled from the spec: pointwise equality of container fields. -/
def valueFieldsEq : List (String × Value) → List (String × Value) → Bool
  | [], [] => true
  | (k, x) :: xs, (l, y) :: ys => k == l && valueEq x y && valueFieldsEq xs ys
  | _, _ => false

end

/-- Modelled from the spec: numeric view of a value, if it has one. -/
def ratOfValue : Value → Option Rat
  | Value.int n => some (n : Rat)
  | Value.float q => some q
  | _ => Option.none

/-- Modelled from the spec: split a field path on the two equivalent
separators `.` and `/`. -/
def splitPathAux : List Char → List Char → List String
  | [], cur => [String.mk cur.reverse]
  | c :: rest, cur =>
    if c == '.' || c == '/' then
      String.mk cur.reverse :: splitPathAux rest []
    else
      splitPathAux rest (c :: cur)

/-- Modelled from the spec: the segments of a dotted/slashed field path. -/
def pathSegments (path : String) : List String := splitPathAux path.toList []

/-- Modelled from the spec: assoc-list lookup used by the mapping-backed
field-resolution capability. -/
def lookupStr : List (String × Value) → String → Option Value
  | [], _ => Option.none
  | (k, v) :: rest, name => if k == name then some v else lookupStr rest name

/-- Modelled from the spec: the field-resolution capability.  A key/value
container resolves a field by lookup; an unresolved segment (or a
non-container context) yields the "no value" sentinel, never an error. -/
def resolveField (v : Value) (name : String) : Value :=
  match v with
  | Value.dict fields => (lookupStr fields name).getD Value.null
  | _ => Value.null

/-- Modelled from the spec: resolve a dotted/slashed path segment by
segment against a data context, carrying forward the nested context
each segment yields. -/
def resolvePath (ctx : Value) (path : String) : Value :=
  (pathSegments path).foldl resolveField ctx

/-- Modelled from the spec: the superposition view of a resolved value.
A superposition exposes its candidates in order; any other value stands
for itself as a one-candidate collection. -/
def superpositionView : Value → List Value
  | Value.sup vs => vs
  | v => [v]

/-- Modelled from the spec: the closed set of immutable AST node
variants produced by the parser and interpreted by the solver. -/
inductive Expr where
  | Literal (v : Value)
  | Binding (path : String)
  | ComponentLiteral (name : String)
  | IsInstance (e : Expr) (typeName : String)
  | Let (ctx body : Expr)
  | LetAny (ctx body : Expr)
  | LetEach (ctx body : Expr)
  | Complement (e : Expr)
  | Intersection (l r : Expr)
  | Union (l r : Expr)
  | Equivalence (l r : Expr)
  | Membership (needle haystack : Expr)
  | ContainmentOrder (l r : Expr)
  | StrictOrder (l r : Expr)
  | PartialOrder (l r : Expr)
  | RegexFilter (l r : Expr)
  | Sum (l r : Expr)
  | Difference (l r : Expr)
  | Product (l r : Expr)
  | Quotient (l r : Expr)

/-- Modelled from the spec: the solver's tagged result, a value plus the
optional AST branch that produced a truthy disjunctive outcome. -/
structure Result where
  value : Value
  branch : Option Expr

/-- Modelled from the spec: the application-supplied capability registry
(type membership, component presence, regex matching) threaded through
every solver call and treated as opaque by the core. -/
structure App where
  hasComponent : String → Bool
  isInstance : Value → String → Bool
  regexMatch : String → String → Bool

/-- Modelled from the spec: addition with numeric promotion; two
integers stay an integer, otherwise both operands must be numeric and
the result is a float. -/
def evalSum : Value → Value → Except String Value
  | Value.int a, Value.int b => Except.ok (Value.int (a + b))
  | a, b =>
    match ratOfValue a, ratOfValue b with
    | some x, some y => Except.ok (Value.float (x + y))
    | _, _ => Except.error "type error: sum of non-numeric values"

/-- Modelled from the spec: subtraction with numeric promotion. -/
def evalDifference : Value → Value → Except String Value
  | Value.int a, Value.int b => Except.ok (Value.int (a - b))
  | a, b =>
    match ratOfValue a, ratOfValue b with
    | some x, some y => Except.ok (Value.float (x - y))
    | _, _ => Except.error "type error: difference of non-numeric values"

/-- Modelled from the spec: multiplication with numeric promotion. -/
def evalProduct : Value → Value → Except String Value
  | Value.int a, Value.int b => Except.ok (Value.int (a * b))
  | a, b =>
    match ratOfValue a, ratOfValue b with
    | some x, some y => Except.ok (Value.float (x * y))
    | _, _ => Except.error "type error: product of non-numeric values"

/-- Modelled from the spec: division.  Integer division with an exact
integer result stays an integer; a division producing a non-integer
result, or any division with a float operand, promotes to floating
point.  Division by zero and non-numeric operands are typed errors. -/
def evalQuotient : Value → Value → Except String Value
  | Value.int a, Value.int b =>
    if b == 0 then Except.error "division by zero"
    else if a % b == 0 then Except.ok (Value.int (a / b))
    else Except.ok (Value.float ((a : Rat) / (b : Rat)))
  | a, b =>
    match ratOfValue a, ratOfValue b with
    | some x, some y =>
      if y == 0 then Except.error "division by zero"
      else Except.ok (Value.float (x / y))
    | _, _ => Except.error "type error: quotient of non-numeric values"

/-- Modelled from the spec: the strict-ordering capability on operand
values.  Numbers compare numerically, strings lexicographically;
non-comparable operand pairs fail with a typed error. -/
def valueLtE (a b : Value) : Except String Bool :=
  match ratOfValue a, ratOfValue b with
  | some x, some y => Except.ok (decide (x < y))
  | _, _ =>
    match a, b with
    | Value.str s, Value.str t => Except.ok (decide (s < t))
    | _, _ => Except.error "type error: operands are not comparable"

/-- Modelled from the spec: the partial-ordering capability on operand
values. -/
def valueLeE (a b : Value) : Except String Bool :=
  match ratOfValue a, ratOfValue b with
  | some x, some y => Except.ok (decide (x ≤ y))
  | _, _ =>
    match a, b with
    | Value.str s, Value.str t => Except.ok (decide (s ≤ t))
    | _, _ => Except.error "type error: operands are not comparable"

/-- Modelled from the spec: the existential quantifier's short-circuit
scan over the candidate evaluations in iteration order — true with
`branch = body` on the first truthy candidate, false with no branch if
exhausted, and the first evaluation error surfaces before any later
candidate is inspected. -/
def anyResult (body : Expr) : List (Except String Result) → Except String Result
  | [] => Except.ok ⟨Value.bool false, Option.none⟩
  | Except.error m :: _ => Except.error m
  | Except.ok r :: rest =>
    if truthy r.value then Except.ok ⟨Value.bool true, some body⟩
    else anyResult body rest

/-- Modelled from the spec: the universal quantifier's conjunctive scan —
false (with the falsifying evaluation's branch) on the first falsy
candidate, vacuously true over an empty superposition. -/
def eachResult : List (Except String Result) → Except String Result
  | [] => Except.ok ⟨Value.bool true, Option.none⟩
  | Except.error m :: _ => Except.error m
  | Except.ok r :: rest =>
    if truthy r.value then eachResult rest
    else Except.ok ⟨Value.bool false, r.branch⟩

/-- Modelled from the spec: the recursive depth-first evaluator.
`solve e ctx app` interprets the AST node `e` against the data context
`ctx` and capability registry `app`, producing a tagged `Result` or a
typed evaluation error.  `Union` short-circuits and records the
alternative that matched, preferring a more specific branch recorded by
a nested disjunction; the quantifiers iterate over the superposition
view of their resolved context. -/
def solve : Expr → Value → App → Except String Result
  | Expr.Literal v, _, _ => Except.ok ⟨v, Option.none⟩
  | Expr.Binding path, ctx, _ => Except.ok ⟨resolvePath ctx path, Option.none⟩
  | Expr.ComponentLiteral name, _, app =>
      Except.ok ⟨Value.bool (app.hasComponent name), Option.none⟩
  | Expr.IsInstance e typeName, ctx, app =>
      match solve e ctx app with
      | Except.error m => Except.error m
      | Except.ok r => Except.ok ⟨Value.bool (app.isInstance r.value typeName), Option.none⟩
  | Expr.Let c b, ctx, app =>
      match solve c ctx app with
      | Except.error m => Except.error m
      | Except.ok rc => solve b rc.value app
  | Expr.LetAny c b, ctx, app =>
      match solve c ctx app with
      | Except.error m => Except.error m
      | Except.ok rc =>
          anyResult b ((superpositionView rc.value).map (fun cand => solve b cand app))
  | Expr.LetEach c b, ctx, app =>
      match solve c ctx app with
      | Except.error m => Except.error m
      | Except.ok rc =>
          eachResult ((superpositionView rc.value).map (fun cand => solve b cand app))
  | Expr.Complement e, ctx, app =>
      match solve e ctx app with
      | Except.error m => Except.error m
      | Except.ok r => Except.ok ⟨Value.bool (!truthy r.value), Option.none⟩
  | Expr.Intersection l r, ctx, app =>
      match solve l ctx app with
      | Except.error m => Except.error m
      | Except.ok rl =>
          if truthy rl.value then
            match solve r ctx app with
            | Except.error m => Except.error m
            | Except.ok rr => Except.ok ⟨rr.value, Option.none⟩
          else Except.ok ⟨rl.value, Option.none⟩
  | Expr.Union l r, ctx, app =>
      match solve l ctx app with
      | Except.error m => Except.error m
      | Except.ok rl =>
          if truthy rl.value then Except.ok ⟨rl.value, some (rl.branch.getD l)⟩
          else
            match solve r ctx app with
            | Except.error m => Except.error m
            | Except.ok rr => Except.ok ⟨rr.value, some (rr.branch.getD r)⟩
  | Expr.Equivalence l r, ctx, app =>
      match solve l ctx app with
      | Except.error m => Except.error m
      | Except.ok rl =>
          match solve r ctx app with
          | Except.error m => Except.error m
          | Except.ok rr => Except.ok ⟨Value.bool (valueEq rl.value rr.value), Option.none⟩
  | Expr.Membership n h, ctx, app =>
      match solve n ctx app with
      | Except.error m => Except.error m
      | Except.ok rn =>
          match solve h ctx app with
          | Except.error m => Except.error m
          | Except.ok rh =>
              match rh.value with
              | Value.tuple vs =>
                  Except.ok ⟨Value.bool (vs.any (fun v => valueEq rn.value v)), Option.none⟩
              | _ => Except.error "type error: membership in a non-collection"
  | Expr.ContainmentOrder l r, ctx, app =>
      match solve l ctx app with
      | Except.error m => Except.error m
      | Except.ok rl =>
          match solve r ctx app with
          | Except.error m => Except.error m
          | Except.ok rr =>
              match rl.value, rr.value with
              | Value.tuple xs, Value.tuple ys =>
                  Except.ok ⟨Value.bool (xs.all (fun x => ys.any (fun y => valueEq x y))),
                             Option.none⟩
              | _, _ => Except.error "type error: containment of non-collections"
  | Expr.StrictOrder l r, ctx, app =>
      match solve l ctx app with
      | Except.error m => Except.error m
      | Except.ok rl =>
          match solve r ctx app with
          | Except.error m => Except.error m
          | Except.ok rr =>
              match valueLtE rr.value rl.value with
              | Except.error m => Except.error m
              | Except.ok b => Except.ok ⟨Value.bool b, Option.none⟩
  | Expr.PartialOrder l r, ctx, app =>
      match solve l ctx app with
      | Except.error m => Except.error m
      | Except.ok rl =>
          match solve r ctx app with
          | Except.error m => Except.error m
          | Except.ok rr =>
              match valueLeE rr.value rl.value with
              | Except.error m => Except.error m
              | Except.ok b => Except.ok ⟨Value.bool b, Option.none⟩
  | Expr.RegexFilter l r, ctx, app =>
      match solve l ctx app with
      | Except.error m => Except.error m
      | Except.ok rl =>
          match solve r ctx app with
          | Except.error m => Except.error m
          | Except.ok rr =>
              match rl.value, rr.value with
              | Value.str s, Value.str pat =>
                  Except.ok ⟨Value.bool (app.regexMatch pat s), Option.none⟩
              | _, _ => Except.error "type error: regex operands must be strings"
  | Expr.Sum l r, ctx, app =>
      match solve l ctx app with
      | Except.error m => Except.error m
      | Except.ok rl =>
          match solve r ctx app with
          | Except.error m => Except.error m
          | Except.ok rr =>
              match evalSum rl.value rr.value with
              | Except.error m => Except.error m
              | Except.ok v => Except.ok ⟨v, Option.none⟩
  | Expr.Difference l r, ctx, app =>
      match solve l ctx app with
      | Except.error m => Except.error m
      | Except.ok rl =>
          match solve r ctx app with
          | Except.error m => Except.error m
          | Except.ok rr =>
              match evalDifference rl.value rr.value with
              | Except.error m => Except.error m
              | Except.ok v => Except.ok ⟨v, Option.none⟩
  | Expr.Product l r, ctx, app =>
      match solve l ctx app with
      | Except.error m => Except.error m
      | Except.ok rl =>
          match solve r ctx app with
          | Except.error m => Except.error m
          | Except.ok rr =>
              match evalProduct rl.value rr.value with
              | Except.error m => Except.error m
              | Except.ok v => Except.ok ⟨v, Option.none⟩
  | Expr.Quotient l r, ctx, app =>
      match solve l ctx app with
      | Except.error m => Except.error m
      | Except.ok rl =>
          match solve r ctx app with
          | Except.error m => Except.error m
          | Except.ok rr =>
              match evalQuotient rl.value rr.value with
              | Except.error m => Except.error m
              | Except.ok v => Except.ok ⟨v, Option.none⟩

/-! ## Tokenizer -/

/-- Modelled from the spec: the kinds of tokens the lexer produces. -/
inductive TokenKind where
  | lit
  | op
  | lparen
  | rparen
  | comma
  | ident
  | kw
  | param
deriving DecidableEq

/-- Modelled from the spec: an immutable (kind, value, source-position)
triple produced by the lexer. -/
structure Token where
  name : TokenKind
  value : Value
  pos : Nat

/-- Modelled from the spec: a lexing failure carrying the offending
position. -/
structure LexError where
  pos : Nat
  msg : String

/-- Modelled from the spec: whitespace (including newlines) is
insignificant and fully skipped between tokens. -/
def isWsChar (c : Char) : Bool := c == ' ' || c == '\n' || c == '\t' || c == '\r'

/-- Modelled from the spec: decimal digit test. -/
def isDigitChar (c : Char) : Bool := '0' ≤ c && c ≤ '9'

/-- Modelled from the spec: case-insensitive hexadecimal digit test. -/
def isHexChar (c : Char) : Bool :=
  isDigitChar c || ('a' ≤ c && c ≤ 'f') || ('A' ≤ c && c ≤ 'F')

/-- Modelled from the spec: first character of a word. -/
def isWordStart (c : Char) : Bool :=
  ('a' ≤ c && c ≤ 'z') || ('A' ≤ c && c ≤ 'Z') || c == '_'

/-- Modelled from the spec: continuation character of a word. -/
def isWordChar (c : Char) : Bool := isWordStart c || isDigitChar c

/-- Modelled from the spec: continuation character of a field path;
both `/` and `.` separators are accepted as equivalent. -/
def isPathChar (c : Char) : Bool := isWordChar c || c == '/' || c == '.'

/-- Modelled from the spec: numeric value of one decimal digit. -/
def digitVal (c : Char) : Nat := c.toNat - 48

/-- Modelled from the spec: numeric value of one hexadecimal digit. -/
def hexVal (c : Char) : Nat :=
  if isDigitChar c then c.toNat - 48
  else if 'a' ≤ c && c ≤ 'f' then c.toNat - 87
  else c.toNat - 55

/-- Modelled from the spec: decimal value of a digit sequence. -/
def decOfDigits (ds : List Char) : Nat := ds.foldl (fun acc c => acc * 10 + digitVal c) 0

/-- Modelled from the spec: hexadecimal value of a digit sequence. -/
def hexOfDigits (ds : List Char) : Nat := ds.foldl (fun acc c => acc * 16 + hexVal c) 0

/-- Modelled from the spec: exact value of a float literal with the
given integer-part and fraction-part digit sequences. -/
def floatOfDigits (ip fp : List Char) : Rat :=
  mkRat (Int.ofNat (decOfDigits (ip ++ fp))) (10 ^ fp.length)

/-- Modelled from the spec: skip insignificant whitespace, tracking the
source position. -/
def skipWs : List Char → Nat → List Char × Nat
  | [], p => ([], p)
  | c :: cs, p => if isWsChar c then skipWs cs (p + 1) else (c :: cs, p)

/-- Modelled from the spec: the words lexed as infix operators.  The
multi-word operators `is not` and `not in` are matched greedily by
`nextTok` before these single words. -/
def isOpWord (w : String) : Bool :=
  w == "and" || w == "or" || w == "in" || w == "is" || w == "matches"

/-- Modelled from the spec: the words lexed as keywords with special
parser meaning. -/
def isKwWord (w : String) : Bool :=
  w == "any" || w == "each" || w == "has" || w == "component" || w == "isa" ||
    w == "not"

/-- Modelled from the spec: classify a scanned word as an operator,
keyword or field-path identifier token.  A word containing a path
separator is always an identifier. -/
def wordToken (w : String) (p : Nat) : Token :=
  if w.toList.any (fun c => c == '/' || c == '.') then ⟨TokenKind.ident, Value.str w, p⟩
  else if isOpWord w then ⟨TokenKind.op, Value.str w, p⟩
  else if isKwWord w then ⟨TokenKind.kw, Value.str w, p⟩
  else ⟨TokenKind.ident, Value.str w, p⟩

/-- Modelled from the spec: scan the single token starting at the given
position, returning the token together with the rest of the source, or
`none` at the end of the source.  Multi-word operators are matched
greedily; `-` is never consumed as part of a numeric literal; a
single-quoted string is taken verbatim and never auto-coerced. -/
def nextTok (cs0 : List Char) (p0 : Nat) :
    Except LexError (Option (Token × List Char × Nat)) :=
  match skipWs cs0 p0 with
  | ([], _) => Except.ok Option.none
  | (c :: cs, p) =>
    if c == '\x27' then
      -- single-quoted string literal, contents verbatim
      let body := cs.takeWhile (fun d => d != '\x27')
      let rest := cs.drop body.length
      match rest with
      | [] => Except.error ⟨p, "unterminated string literal"⟩
      | _ :: rest' =>
          Except.ok (some (⟨TokenKind.lit, Value.str (String.mk body), p⟩,
            rest', p + body.length + 2))
    else if c == '\x7b' then
      -- template parameter placeholder
      let body := cs.takeWhile (fun d => d != '\x7d')
      let rest := cs.drop body.length
      match rest with
      | [] => Except.error ⟨p, "unterminated param placeholder"⟩
      | _ :: rest' =>
          Except.ok (some (⟨TokenKind.param, Value.str (String.mk body), p⟩,
            rest', p + body.length + 2))
    else if c == '0' && (cs.headD ' ' == 'x' || cs.headD ' ' == 'X') then
      -- hexadecimal integer literal
      let ds := (cs.drop 1).takeWhile isHexChar
      if ds.isEmpty then Except.error ⟨p, "malformed hexadecimal literal"⟩
      else
        Except.ok (some (⟨TokenKind.lit, Value.int (Int.ofNat (hexOfDigits ds)), p⟩,
          cs.drop (1 + ds.length), p + 2 + ds.length))
    else if isDigitChar c then
      -- decimal integer or float literal; `-` is a parser-level operator
      let ip := (c :: cs).takeWhile isDigitChar
      let rest := (c :: cs).drop ip.length
      match rest with
      | '.' :: ds =>
          let fp := ds.takeWhile isDigitChar
          if fp.isEmpty then Except.error ⟨p, "malformed float literal"⟩
          else
            Except.ok (some (⟨TokenKind.lit, Value.float (floatOfDigits ip fp), p⟩,
              ds.drop fp.length, p + ip.length + 1 + fp.length))
      | _ =>
          Except.ok (some (⟨TokenKind.lit, Value.int (Int.ofNat (decOfDigits ip)), p⟩,
            rest, p + ip.length))
    else if isWordStart c then
      -- word: field path, operator or keyword; `is not` and `not in`
      -- are matched greedily as single multi-word operator tokens
      let wcs := (c :: cs).takeWhile isPathChar
      let rest := (c :: cs).drop wcs.length
      let w := String.mk wcs
      let (rest2, p2) := skipWs rest (p + wcs.length)
      let w2cs := rest2.takeWhile isWordChar
      let w2 := String.mk w2cs
      if w == "is" && w2 == "not" then
        Except.ok (some (⟨TokenKind.op, Value.str "is not", p⟩,
          rest2.drop w2cs.length, p2 + w2cs.length))
      else if w == "not" && w2 == "in" then
        Except.ok (some (⟨TokenKind.op, Value.str "not in", p⟩,
          rest2.drop w2cs.length, p2 + w2cs.length))
      else
        Except.ok (some (wordToken w p, rest, p + wcs.length))
    else
      -- structural and symbolic operator tokens, longest match first
      match c :: cs with
      | '=' :: '=' :: rest => Except.ok (some (⟨TokenKind.op, Value.str "==", p⟩, rest, p + 2))
      | '=' :: '~' :: rest => Except.ok (some (⟨TokenKind.op, Value.str "=~", p⟩, rest, p + 2))
      | '!' :: '=' :: rest => Except.ok (some (⟨TokenKind.op, Value.str "!=", p⟩, rest, p + 2))
      | '>' :: '=' :: rest => Except.ok (some (⟨TokenKind.op, Value.str ">=", p⟩, rest, p + 2))
      | '<' :: '=' :: rest => Except.ok (some (⟨TokenKind.op, Value.str "<=", p⟩, rest, p + 2))
      | '-' :: '>' :: rest => Except.ok (some (⟨TokenKind.op, Value.str "->", p⟩, rest, p + 2))
      | '>' :: rest => Except.ok (some (⟨TokenKind.op, Value.str ">", p⟩, rest, p + 1))
      | '<' :: rest => Except.ok (some (⟨TokenKind.op, Value.str "<", p⟩, rest, p + 1))
      | '+' :: rest => Except.ok (some (⟨TokenKind.op, Value.str "+", p⟩, rest, p + 1))
      | '-' :: rest => Except.ok (some (⟨TokenKind.op, Value.str "-", p⟩, rest, p + 1))
      | '*' :: rest => Except.ok (some (⟨TokenKind.op, Value.str "*", p⟩, rest, p + 1))
      | '/' :: rest => Except.ok (some (⟨TokenKind.op, Value.str "/", p⟩, rest, p + 1))
      | '(' :: rest => Except.ok (some (⟨TokenKind.lparen, Value.str "(", p⟩, rest, p + 1))
      | ')' :: rest => Except.ok (some (⟨TokenKind.rparen, Value.str ")", p⟩, rest, p + 1))
      | ',' :: rest => Except.ok (some (⟨TokenKind.comma, Value.str ",", p⟩, rest, p + 1))
      | _ => Except.error ⟨p, "unrecognized character"⟩

/-- Modelled from the spec: scan the whole source into a token
sequence.  The fuel argument makes the recursion structural; every
scanned token consumes at least one character, so the fuel supplied by
`tokenize` never runs out. -/
def tokenizeF : Nat → List Char → Nat → Except LexError (List Token)
  | 0, _, p => Except.error ⟨p, "tokenizer fuel exhausted"⟩
  | Nat.succ n, cs, p =>
    match nextTok cs p with
    | Except.error e => Except.error e
    | Except.ok Option.none => Except.ok []
    | Except.ok (some (t, cs', p')) =>
        match tokenizeF n cs' p' with
        | Except.error e => Except.error e
        | Except.ok ts => Except.ok (t :: ts)

/-- Modelled from the spec: `parse(source) -> sequence of Token`. -/
def tokenize (s : String) : Except LexError (List Token) :=
  tokenizeF (s.toList.length + 1) s.toList 0

/-! ## Tokenizer cursor (stateful lookahead interface) -/

/-- Modelled from the spec: the stateful cursor the parser drives.  The
unscanned source, the lookahead buffer filled by `peek`, and the
`current_token` last returned by `next_token`. -/
structure Tokenizer where
  chars : List Char
  pos : Nat
  lookahead : List Token
  current_token : Option Token

/-- Modelled from the spec: a fresh cursor over a source string. -/
def mkTokenizer (s : String) : Tokenizer := ⟨s.toList, 0, [], Option.none⟩

/-- Modelled from the spec: fill the lookahead buffer until it holds at
least `k` tokens (or the stream is exhausted), then return the token
`k` positions ahead of the cursor, without touching `current_token`.
The fuel makes the recursion structural; `peek` supplies `k + 1`, which
suffices because every iteration grows the buffer by one token. -/
def fillPeek : Nat → Nat → Tokenizer → Except LexError (Option Token × Tokenizer)
  | 0, _, s => Except.error ⟨s.pos, "peek fuel exhausted"⟩
  | Nat.succ n, k, s =>
    if s.lookahead.length < k then
      match nextTok s.chars s.pos with
      | Except.error e => Except.error e
      | Except.ok Option.none => Except.ok (Option.none, s)
      | Except.ok (some (t, cs', p')) =>
          fillPeek n k { s with chars := cs', pos := p', lookahead := s.lookahead ++ [t] }
    else
      Except.ok (s.lookahead.get? (k - 1), s)

/-- Modelled from the spec: `peek(k)` returns the token `k` positions
ahead of the current cursor without advancing it, or `none` if the
stream is exhausted before reaching that position. -/
def peek (s : Tokenizer) (k : Nat) : Except LexError (Option Token × Tokenizer) :=
  fillPeek (k + 1) k s

/-- Modelled from the spec: `next_token()` consumes and returns the next
token (drawing from the lookahead buffer first), records it in
`current_token`, and returns `none` at the end of the stream. -/
def next_token (s : Tokenizer) : Except LexError (Option Token × Tokenizer) :=
  match s.lookahead with
  | t :: rest => Except.ok (some t, { s with lookahead := rest, current_token := some t })
  | [] =>
    match nextTok s.chars s.pos with
    | Except.error e => Except.error e
    | Except.ok Option.none => Except.ok (Option.none, { s with current_token := Option.none })
    | Except.ok (some (t, cs', p')) =>
        Except.ok (some t, { s with chars := cs', pos := p', current_token := some t })

/-! ## Parser -/

/-- Modelled from the spec: a structural grammar violation,
`EfilterParseError` carrying the offending token. -/
structure ParseError where
  token : Option Token
  msg : String

/-- Modelled from the spec: caller-supplied template parameters, either
an ordered sequence bound positionally to empty placeholders or a
mapping from name to value. -/
inductive Params where
  | nil
  | positional (vals : List Value)
  | named (vals : List (String × Value))

/-- Modelled from the spec: resolve one placeholder against the params.
An empty placeholder name consumes the next positional value; a named
placeholder looks the name up in the mapping; every mismatch between
placeholder form and params form, and every missing value, is a hard
parse error. -/
def lookupParam (params : Params) (i : Nat) (name : String) (t : Token) :
    Except ParseError Value :=
  if name == "" then
    match params with
    | Params.positional vals =>
        match vals.get? i with
        | some v => Except.ok v
        | Option.none => Except.error ⟨some t, "not enough positional params"⟩
    | Params.named _ => Except.error ⟨some t, "positional placeholder with named params"⟩
    | Params.nil => Except.error ⟨some t, "no params supplied for placeholder"⟩
  else
    match params with
    | Params.named vals =>
        match lookupStr vals name with
        | some v => Except.ok v
        | Option.none => Except.error ⟨some t, "unknown param name"⟩
    | Params.positional _ => Except.error ⟨some t, "named placeholder with positional params"⟩
    | Params.nil => Except.error ⟨some t, "no params supplied for placeholder"⟩

/-- Modelled from the spec: the template-substitution pass.  Placeholder
tokens are replaced, in left-to-right source order, by literal tokens
holding the corresponding param value — a substituted param always
yields a literal token and can never stand in for a field-path
identifier.  All other tokens pass through unchanged. -/
def substTokens (params : Params) : Nat → List Token → Except ParseError (List Token)
  | _, [] => Except.ok []
  | i, t :: ts =>
    if t.name = TokenKind.param then
      match t.value with
      | Value.str name =>
          match lookupParam params i name t with
          | Except.error e => Except.error e
          | Except.ok v =>
              match substTokens params (if name == "" then i + 1 else i) ts with
              | Except.error e => Except.error e
              | Except.ok rest => Except.ok (⟨TokenKind.lit, v, t.pos⟩ :: rest)
      | _ => Except.error ⟨some t, "malformed param token"⟩
    else
      match substTokens params i ts with
      | Except.error e => Except.error e
      | Except.ok rest => Except.ok (t :: rest)

/-- Modelled from the spec: the comparison-level operator table, mapping
an infix operator word to the AST constructor it builds.  `is not`
desugars to the complement of `is`, and `not in` to the complement of
`in`; `<` and `<=` build the same ordering nodes as `>` and `>=` with
the operands swapped. -/
def cmpOp (w : String) : Option (Expr → Expr → Expr) :=
  if w == "is" || w == "==" then some Expr.Equivalence
  else if w == "is not" || w == "!=" then
    some (fun l r => Expr.Complement (Expr.Equivalence l r))
  else if w == "in" then some Expr.Membership
  else if w == "not in" then
    some (fun l r => Expr.Complement (Expr.Membership l r))
  else if w == "=~" then some Expr.RegexFilter
  else if w == ">" then some Expr.StrictOrder
  else if w == "<" then some (fun l r => Expr.StrictOrder r l)
  else if w == ">=" then some Expr.PartialOrder
  else if w == "<=" then some (fun l r => Expr.PartialOrder r l)
  else Option.none

/-- Modelled from the spec: a quantifier keyword must be immediately
followed by a `matches`/`->` subexpression — the parsed body must be a
`Let` node, which the quantifier rewrites into `LetAny`/`LetEach`; any
other body is a hard parse error. -/
def wrapLet (kwTok : Token) (isEach : Bool) (e : Expr) (ts : List Token) :
    Except ParseError (Expr × List Token) :=
  match e with
  | Expr.Let a b =>
      if isEach then Except.ok (Expr.LetEach a b, ts)
      else Except.ok (Expr.LetAny a b, ts)
  | _ => Except.error ⟨some kwTok, "quantifier must be followed by a matches subexpression"⟩

/-- Modelled from the spec: the parse error reported when the
precedence-climbing recursion runs out of fuel; unreachable for the
fuel `parseQuery` supplies. -/
def fuelError (ts : List Token) : ParseError := ⟨ts.head?, "parser fuel exhausted"⟩

mutual

/-- Modelled from the spec: precedence level 1, `or` folding
left-associatively into nested binary `Union` nodes. -/
def parseOr : Nat → List Token → Except ParseError (Expr × List Token)
  | 0, ts => Except.error (fuelError ts)
  | Nat.succ n, ts =>
    match parseAnd n ts with
    | Except.error e => Except.error e
    | Except.ok (l, ts') => parseOrRest n l ts'

/-- Modelled from the spec: the left-associative `or` chain. -/
def parseOrRest : Nat → Expr → List Token → Except ParseError (Expr × List Token)
  | 0, _, ts => Except.error (fuelError ts)
  | Nat.succ n, l, ts =>
    match ts with
    | ⟨TokenKind.op, Value.str w, _⟩ :: rest =>
      if w == "or" then
        match parseAnd n rest with
        | Except.error e => Except.error e
        | Except.ok (r, ts') => parseOrRest n (Expr.Union l r) ts'
      else Except.ok (l, ts)
    | _ => Except.ok (l, ts)

/-- Modelled from the spec: precedence level 2, `and` folding
left-associatively into nested binary `Intersection` nodes. -/
def parseAnd : Nat → List Token → Except ParseError (Expr × List Token)
  | 0, ts => Except.error (fuelError ts)
  | Nat.succ n, ts =>
    match parseNot n ts with
    | Except.error e => Except.error e
    | Except.ok (l, ts') => parseAndRest n l ts'

/-- Modelled from the spec: the left-associative `and` chain. -/
def parseAndRest : Nat → Expr → List Token → Except ParseError (Expr × List Token)
  | 0, _, ts => Except.error (fuelError ts)
  | Nat.succ n, l, ts =>
    match ts with
    | ⟨TokenKind.op, Value.str w, _⟩ :: rest =>
      if w == "and" then
        match parseNot n rest with
        | Except.error e => Except.error e
        | Except.ok (r, ts') => parseAndRest n (Expr.Intersection l r) ts'
      else Except.ok (l, ts)
    | _ => Except.ok (l, ts)

/-- Modelled from the spec: precedence level 3, the `not` complement
as a prefix operator. -/
def parseNot : Nat → List Token → Except ParseError (Expr × List Token)
  | 0, ts => Except.error (fuelError ts)
  | Nat.succ n, ts =>
    match ts with
    | ⟨TokenKind.kw, Value.str w, _⟩ :: rest =>
      if w == "not" then
        match parseNot n rest with
        | Except.error e => Except.error e
        | Except.ok (e, ts') => Except.ok (Expr.Complement e, ts')
      else parseLet n ts
    | _ => parseLet n ts

/-- Modelled from the spec: the path-navigation level.  `A -> B` and
`A matches B` parse as `Let(A, B)`, with the body parsed at the
comparison level so that `A matches B is C` nests the comparison inside
the body; non-chaining. -/
def parseLet : Nat → List Token → Except ParseError (Expr × List Token)
  | 0, ts => Except.error (fuelError ts)
  | Nat.succ n, ts =>
    match parseCmp n ts with
    | Except.error e => Except.error e
    | Except.ok (l, ts') =>
      match ts' with
      | ⟨TokenKind.op, Value.str w, _⟩ :: rest =>
        if w == "matches" || w == "->" then
          match parseCmp n rest with
          | Except.error e => Except.error e
          | Except.ok (r, ts'') => Except.ok (Expr.Let l r, ts'')
        else Except.ok (l, ts')
      | _ => Except.ok (l, ts')

/-- Modelled from the spec: the comparison level — `is`, `is not`,
`==`, `!=`, orderings, `in`, `not in`, `=~` — binding tighter than the
boolean connectives and looser than arithmetic; non-chaining. -/
def parseCmp : Nat → List Token → Except ParseError (Expr × List Token)
  | 0, ts => Except.error (fuelError ts)
  | Nat.succ n, ts =>
    match parseAddSub n ts with
    | Except.error e => Except.error e
    | Except.ok (l, ts') =>
      match ts' with
      | ⟨TokenKind.op, Value.str w, _⟩ :: rest =>
        match cmpOp w with
        | some build =>
          match parseAddSub n rest with
          | Except.error e => Except.error e
          | Except.ok (r, ts'') => Except.ok (build l r, ts'')
        | Option.none => Except.ok (l, ts')
      | _ => Except.ok (l, ts')

/-- Modelled from the spec: precedence level of binary `+`/`-`, folding
left-associatively into `Sum`/`Difference`. -/
def parseAddSub : Nat → List Token → Except ParseError (Expr × List Token)
  | 0, ts => Except.error (fuelError ts)
  | Nat.succ n, ts =>
    match parseUnary n ts with
    | Except.error e => Except.error e
    | Except.ok (l, ts') => parseAddSubRest n l ts'

/-- Modelled from the spec: the left-associative `+`/`-` chain. -/
def parseAddSubRest : Nat → Expr → List Token → Except ParseError (Expr × List Token)
  | 0, _, ts => Except.error (fuelError ts)
  | Nat.succ n, l, ts =>
    match ts with
    | ⟨TokenKind.op, Value.str w, _⟩ :: rest =>
      if w == "+" then
        match parseUnary n rest with
        | Except.error e => Except.error e
        | Except.ok (r, ts') => parseAddSubRest n (Expr.Sum l r) ts'
      else if w == "-" then
        match parseUnary n rest with
        | Except.error e => Except.error e
        | Except.ok (r, ts') => parseAddSubRest n (Expr.Difference l r) ts'
      else Except.ok (l, ts)
    | _ => Except.ok (l, ts)

/-- Modelled from the spec: unary prefix `-`, binding tighter than
binary `+`/`-` but looser than `*`/`/`, desugared to
`Product(Literal(-1), x)` where `x` is a full `*`/`/`-level operand. -/
def parseUnary : Nat → List Token → Except ParseError (Expr × List Token)
  | 0, ts => Except.error (fuelError ts)
  | Nat.succ n, ts =>
    match ts with
    | ⟨TokenKind.op, Value.str w, _⟩ :: rest =>
      if w == "-" then
        match parseMulDiv n rest with
        | Except.error e => Except.error e
        | Except.ok (e, ts') =>
            Except.ok (Expr.Product (Expr.Literal (Value.int (-1))) e, ts')
      else parseMulDiv n ts
    | _ => parseMulDiv n ts

/-- Modelled from the spec: precedence level of `*`/`/`, folding
left-associatively into `Product`/`Quotient`. -/
def parseMulDiv : Nat → List Token → Except ParseError (Expr × List Token)
  | 0, ts => Except.error (fuelError ts)
  | Nat.succ n, ts =>
    match parsePrimary n ts with
    | Except.error e => Except.error e
    | Except.ok (l, ts') => parseMulDivRest n l ts'

/-- Modelled from the spec: the left-associative `*`/`/` chain. -/
def parseMulDivRest : Nat → Expr → List Token → Except ParseError (Expr × List Token)
  | 0, _, ts => Except.error (fuelError ts)
  | Nat.succ n, l, ts =>
    match ts with
    | ⟨TokenKind.op, Value.str w, _⟩ :: rest =>
      if w == "*" then
        match parsePrimary n rest with
        | Except.error e => Except.error e
        | Except.ok (r, ts') => parseMulDivRest n (Expr.Product l r) ts'
      else if w == "/" then
        match parsePrimary n rest with
        | Except.error e => Except.error e
        | Except.ok (r, ts') => parseMulDivRest n (Expr.Quotient l r) ts'
      else Except.ok (l, ts)
    | _ => Except.ok (l, ts)

/-- Modelled from the spec: primary expressions — literals, field-path
bindings, parenthesized subexpressions and list literals, the
quantifier forms `any`/`each` (which require a `matches`/`->` body),
and `has component Identifier`.  An unsubstituted placeholder and any
other token are hard parse errors. -/
def parsePrimary : Nat → List Token → Except ParseError (Expr × List Token)
  | 0, ts => Except.error (fuelError ts)
  | Nat.succ n, ts =>
    match ts with
    | ⟨TokenKind.lit, v, _⟩ :: rest => Except.ok (Expr.Literal v, rest)
    | ⟨TokenKind.ident, Value.str w, _⟩ :: rest => Except.ok (Expr.Binding w, rest)
    | ⟨TokenKind.lparen, _, _⟩ :: rest => parseParen n rest
    | ⟨TokenKind.kw, Value.str w, p⟩ :: rest =>
      if w == "any" then
        match parseLet n rest with
        | Except.error e => Except.error e
        | Except.ok (e, ts') => wrapLet ⟨TokenKind.kw, Value.str w, p⟩ false e ts'
      else if w == "each" then
        match parseLet n rest with
        | Except.error e => Except.error e
        | Except.ok (e, ts') => wrapLet ⟨TokenKind.kw, Value.str w, p⟩ true e ts'
      else if w == "has" then
        match rest with
        | ⟨TokenKind.kw, Value.str w2, _⟩ :: ⟨TokenKind.ident, Value.str cname, _⟩ :: rest2 =>
          if w2 == "component" then Except.ok (Expr.ComponentLiteral cname, rest2)
          else Except.error ⟨some ⟨TokenKind.kw, Value.str w, p⟩, "expected component keyword"⟩
        | _ => Except.error ⟨some ⟨TokenKind.kw, Value.str w, p⟩, "expected component Identifier"⟩
      else Except.error ⟨some ⟨TokenKind.kw, Value.str w, p⟩, "unexpected keyword"⟩
    | (t@⟨TokenKind.param, _, _⟩) :: _ =>
        Except.error ⟨some t, "unsubstituted param placeholder"⟩
    | t :: _ => Except.error ⟨some t, "unexpected token"⟩
    | [] => Except.error ⟨Option.none, "unexpected end of query"⟩

/-- Modelled from the spec: the inside of a parenthesized form — an
immediate `)` is an empty list literal; a parsed subexpression followed
by `)` is a grouping; followed by `,` it starts a list literal whose
elements must all be literals, collapsing into a single tuple-valued
`Literal` node.  A missing closing paren is a hard parse error. -/
def parseParen : Nat → List Token → Except ParseError (Expr × List Token)
  | 0, ts => Except.error (fuelError ts)
  | Nat.succ n, ts =>
    match ts with
    | ⟨TokenKind.rparen, _, _⟩ :: rest => Except.ok (Expr.Literal (Value.tuple []), rest)
    | _ =>
      match parseOr n ts with
      | Except.error e => Except.error e
      | Except.ok (e, ts') =>
        match ts' with
        | ⟨TokenKind.rparen, _, _⟩ :: rest => Except.ok (e, rest)
        | (t@⟨TokenKind.comma, _, _⟩) :: rest =>
          match e with
          | Expr.Literal v => parseListRest n [v] rest
          | _ => Except.error ⟨some t, "list elements must be literals"⟩
        | t :: _ => Except.error ⟨some t, "expected closing paren or comma"⟩
        | [] => Except.error ⟨Option.none, "missing closing paren"⟩

/-- Modelled from the spec: the remaining comma-separated literal
elements of a list literal, accumulated in reverse. -/
def parseListRest : Nat → List Value → List Token → Except ParseError (Expr × List Token)
  | 0, _, ts => Except.error (fuelError ts)
  | Nat.succ n, acc, ts =>
    match ts with
    | ⟨TokenKind.rparen, _, _⟩ :: rest =>
        Except.ok (Expr.Literal (Value.tuple acc.reverse), rest)
    | _ =>
      match parseOr n ts with
      | Except.error e => Except.error e
      | Except.ok (e, ts') =>
        match e with
        | Expr.Literal v =>
          match ts' with
          | ⟨TokenKind.comma, _, _⟩ :: rest => parseListRest n (v :: acc) rest
          | ⟨TokenKind.rparen, _, _⟩ :: rest =>
              Except.ok (Expr.Literal (Value.tuple (v :: acc).reverse), rest)
          | t :: _ => Except.error ⟨some t, "expected closing paren or comma"⟩
          | [] => Except.error ⟨Option.none, "missing closing paren"⟩
        | _ =>
          match ts' with
          | t :: _ => Except.error ⟨some t, "list elements must be literals"⟩
          | [] => Except.error ⟨Option.none, "list elements must be literals"⟩

end

/-- Modelled from the spec: the fuel supplied to the precedence-climbing
recursion; linear in the token count with room for the constant descent
through the precedence levels. -/
def parserFuel (ts : List Token) : Nat := 16 * ts.length + 32

/-- Modelled from the spec: a failure of the whole pipeline — a lexing
failure or a structural parse error. -/
inductive QueryError where
  | lex (e : LexError)
  | parse (e : ParseError)

/-- Modelled from the spec: `parse(source, params) -> AST root`.
Tokenize, run the template-substitution pass, parse a single expression
and require the token stream to be exhausted — trailing tokens after a
complete expression are a hard parse error. -/
def parseQuery (src : String) (params : Params) : Except QueryError Expr :=
  match tokenize src with
  | Except.error e => Except.error (QueryError.lex e)
  | Except.ok toks =>
    match substTokens params 0 toks with
    | Except.error e => Except.error (QueryError.parse e)
    | Except.ok toks' =>
      match parseOr (parserFuel toks') toks' with
      | Except.error e => Except.error (QueryError.parse e)
      | Except.ok (e, []) => Except.ok e
      | Except.ok (_, t :: _) =>
          Except.error (QueryError.parse ⟨some t, "trailing tokens after complete expression"⟩)

/-- A capability registry suitable for the mock application the
conformance tests use: every component is present, every type matches,
and the regex capability is unused by the verified properties. -/
def mockApp : App := ⟨fun _ => true, fun _ _ => true, fun _ _ => false⟩

/-- The mock process object of the conformance tests, as a key/value
container with `pid`, `command` and `parent` fields. -/
def mockProcess (pid : Value) (command : Value) (parent : Value) : Value :=
  Value.dict [("pid", pid), ("command", command), ("parent", parent)]

/-! ## Theorems -/

/-- A candidate value satisfies a quantifier body iff solving the body
against it succeeds with a truthy value. -/
def satisfies (body : Expr) (app : App) (c : Value) : Prop :=
  ∃ r, solve body c app = Except.ok r ∧ truthy r.value = true

theorem anyResult_ok_iff (body : Expr) (app : App) :
    ∀ (cands : List Value) (res : Result),
      anyResult body (cands.map (fun c => solve body c app)) = Except.ok res →
      (res.value = Value.bool true ↔ ∃ c ∈ cands, satisfies body app c) := by
  intro cands
  induction cands with
  | nil =>
      intro res h
      simp only [List.map_nil, anyResult] at h
      injection h with h
      subst h
      simp [satisfies]
  | cons c cs ih =>
      intro res h
      simp only [List.map_cons, anyResult] at h
      cases hsolve : solve body c app with
      | error m => rw [hsolve] at h; exact absurd h (by simp [anyResult])
      | ok r =>
          rw [hsolve] at h
          simp only [anyResult] at h
          by_cases ht : truthy r.value = true
          · simp only [ht, if_true] at h
            injection h with h
            subst h
            constructor
            · intro _; exact ⟨c, by simp, r, hsolve, ht⟩
            · intro _; rfl
          · simp only [ht, if_false] at h
            have := ih res h
            rw [this]
            constructor
            · intro ⟨d, hd, hsat⟩; exact ⟨d, by simp [hd], hsat⟩
            · intro ⟨d, hd, hsat⟩
              rcases List.mem_cons.mp hd with hdc | hdcs
              · subst hdc
                rcases hsat with ⟨r', hr', ht'⟩
                rw [hsolve] at hr'
                injection hr' with hr'
                subst hr'
                exact absurd ht' ht
              · exact ⟨d, hdcs, hsat⟩

theorem eachResult_ok_iff (body : Expr) (app : App) :
    ∀ (cands : List Value) (res : Result),
      eachResult (cands.map (fun c => solve body c app)) = Except.ok res →
      (res.value = Value.bool true ↔ ∀ c ∈ cands, satisfies body app c) := by
  intro cands
  induction cands with
  | nil =>
      intro res h
      simp only [List.map_nil, eachResult] at h
      injection h with h
      subst h
      simp
  | cons c cs ih =>
      intro res h
      simp only [List.map_cons, eachResult] at h
      cases hsolve : solve body c app with
      | error m => rw [hsolve] at h; exact absurd h (by simp [eachResult])
      | ok r =>
          rw [hsolve] at h
          simp only [eachResult] at h
          by_cases ht : truthy r.value = true
          · simp only [ht, if_true] at h
            have := ih res h
            rw [this]
            constructor
            · intro hall d hd
              rcases List.mem_cons.mp hd with hdc | hdcs
              · subst hdc; exact ⟨r, hsolve, ht⟩
              · exact hall d hdcs
            · intro hall d hd; exact hall d (by simp [hd])
          · simp only [ht, if_false] at h
            injection h with h
            subst h
            constructor
            · intro hfalse; exact absurd hfalse (by simp)
            · intro hall
              rcases hall c (by simp) with ⟨r', hr', ht'⟩
              rw [hsolve] at hr'
              injection hr' with hr'
              subst hr'
              exact absurd ht' ht

/-- The quantifier body of the `testLetAny`/`testLetEach` conformance
tests: `pid == 1`. -/
def c1Body : Expr := Expr.Equivalence (Expr.Binding "pid") (Expr.Literal (Value.int 1))

/-- The data context of the `testLetAny`/`testLetEach` conformance
tests: `Process.parent` bound to a superposition of a process with pid 1
and a process with pid 2. -/
def c1Context : Value :=
  Value.dict [("Process", Value.dict [("parent",
    Value.sup [mockProcess (Value.int 1) Value.null Value.null,
               mockProcess (Value.int 2) Value.null Value.null])])]

/-- C1: for a context field bound to a superposition of candidates,
`any X matches Y` evaluates to true iff at least one candidate satisfies
`Y`, and `each X matches Y` evaluates to true iff every candidate
satisfies `Y` (vacuously true for an empty superposition).  Concretely,
against a context where `Process.parent` is a superposition of a process
with pid 1 and a process with pid 2, solving the any-form with body
`pid == 1` yields value `True` and solving the each-form with the same
body yields value `False`. -/
theorem quantifier_semantics :
    (∀ (app : App) (body : Expr) (path : String) (ctx : Value) (cands : List Value)
        (res : Result),
        resolvePath ctx path = Value.sup cands →
        solve (Expr.LetAny (Expr.Binding path) body) ctx app = Except.ok res →
        (res.value = Value.bool true ↔ ∃ c ∈ cands, satisfies body app c)) ∧
    (∀ (app : App) (body : Expr) (path : String) (ctx : Value) (cands : List Value)
        (res : Result),
        resolvePath ctx path = Value.sup cands →
        solve (Expr.LetEach (Expr.Binding path) body) ctx app = Except.ok res →
        (res.value = Value.bool true ↔ ∀ c ∈ cands, satisfies body app c)) ∧
    (∀ (app : App) (body : Expr) (path : String) (ctx : Value),
        resolvePath ctx path = Value.sup [] →
        solve (Expr.LetEach (Expr.Binding path) body) ctx app =
          Except.ok ⟨Value.bool true, Option.none⟩) ∧
    solve (Expr.LetAny (Expr.Binding "Process.parent") c1Body) c1Context mockApp =
      Except.ok ⟨Value.bool true, some c1Body⟩ ∧
    solve (Expr.LetEach (Expr.Binding "Process.parent") c1Body) c1Context mockApp =
      Except.ok ⟨Value.bool false, Option.none⟩ := by
  refine ⟨?_, ?_, ?_, rfl, rfl⟩
  · intro app body path ctx cands res hsup hsolve
    simp only [solve, hsup, superpositionView] at hsolve
    exact anyResult_ok_iff body app cands res hsolve
  · intro app body path ctx cands res hsup hsolve
    simp only [solve, hsup, superpositionView] at hsolve
    exact eachResult_ok_iff body app cands res hsolve
  · intro app body path ctx hsup
    simp only [solve, hsup, superpositionView, List.map_nil, eachResult]

/-- Witness for C1: the general any-quantifier equivalence applied to
the concrete conformance-test superposition. -/
theorem quantifier_semantics_witness :
    ((⟨Value.bool true, some c1Body⟩ : Result).value = Value.bool true ↔
      ∃ c ∈ [mockProcess (Value.int 1) Value.null Value.null,
             mockProcess (Value.int 2) Value.null Value.null],
        satisfies c1Body mockApp c) :=
  quantifier_semantics.1 mockApp c1Body "Process.parent" c1Context
    [mockProcess (Value.int 1) Value.null Value.null,
     mockProcess (Value.int 2) Value.null Value.null]
    ⟨Value.bool true, some c1Body⟩ rfl rfl

/-- The alternative `pid == 2` recorded as the matching branch in the
`testMatchTrace` conformance test. -/
def c2Branch : Expr := Expr.Equivalence (Expr.Binding "pid") (Expr.Literal (Value.int 2))

/-- C2: solving `"pid == 1 or pid == 2 or pid == 3"` against a context
whose `pid` field is 2 produces a result whose recorded branch is
structurally the AST parsed from `"pid == 2"` — the short-circuiting
`Union` records exactly the alternative that produced the truthy
outcome. -/
theorem match_branch_tracing :
    parseQuery "pid == 1 or pid == 2 or pid == 3" Params.nil =
      Except.ok
        (Expr.Union
          (Expr.Union (Expr.Equivalence (Expr.Binding "pid") (Expr.Literal (Value.int 1)))
                      c2Branch)
          (Expr.Equivalence (Expr.Binding "pid") (Expr.Literal (Value.int 3)))) ∧
    solve
        (Expr.Union
          (Expr.Union (Expr.Equivalence (Expr.Binding "pid") (Expr.Literal (Value.int 1)))
                      c2Branch)
          (Expr.Equivalence (Expr.Binding "pid") (Expr.Literal (Value.int 3))))
        (mockProcess (Value.int 2) Value.null Value.null) mockApp =
      Except.ok ⟨Value.bool true, some c2Branch⟩ ∧
    parseQuery "pid == 2" Params.nil = Except.ok c2Branch :=
  ⟨rfl, rfl, rfl⟩

/-- C3: the parser treats prefix `-` as binding tighter than binary
`+`/`-` but looser than `*`/`/`, and desugars `-x` to
`Product(Literal(-1), x)`: `"-5 + 5"` parses to
`Sum(Product(-1, 5), 5)`, `"-5 * 5"` to `Product(-1, Product(5, 5))`,
and `"-(5 + 5)"` to `Product(-1, Sum(5, 5))`. -/
theorem unary_minus_precedence :
    parseQuery "-5 + 5" Params.nil =
      Except.ok (Expr.Sum
        (Expr.Product (Expr.Literal (Value.int (-1))) (Expr.Literal (Value.int 5)))
        (Expr.Literal (Value.int 5))) ∧
    parseQuery "-5 * 5" Params.nil =
      Except.ok (Expr.Product (Expr.Literal (Value.int (-1)))
        (Expr.Product (Expr.Literal (Value.int 5)) (Expr.Literal (Value.int 5)))) ∧
    parseQuery "-(5 + 5)" Params.nil =
      Except.ok (Expr.Product (Expr.Literal (Value.int (-1)))
        (Expr.Sum (Expr.Literal (Value.int 5)) (Expr.Literal (Value.int 5)))) :=
  ⟨rfl, rfl, rfl⟩

/-- C5: `not in` desugars to a complemented membership.  The
comparison-operator table maps `not in` applied to any needle `a` and
haystack `L` to the logical complement of what it maps `in` to for the
identical operands, and the conformance-test query parses to
`Intersection(Membership(..), Complement(Membership(..)))`. -/
theorem not_in_desugars_to_complement :
    (∀ a L : Expr,
        (cmpOp "not in").map (fun build => build a L) =
          some (Expr.Complement (Expr.Membership a L)) ∧
        (cmpOp "in").map (fun build => build a L) = some (Expr.Membership a L)) ∧
    parseQuery "\x27foo\x27 in (\x27foo\x27, \x27bar\x27) and 1 not in (5, 2, 3,17)"
        Params.nil =
      Except.ok (Expr.Intersection
        (Expr.Membership (Expr.Literal (Value.str "foo"))
          (Expr.Literal (Value.tuple [Value.str "foo", Value.str "bar"])))
        (Expr.Complement (Expr.Membership (Expr.Literal (Value.int 1))
          (Expr.Literal (Value.tuple
            [Value.int 5, Value.int 2, Value.int 3, Value.int 17]))))) :=
  ⟨fun _ _ => ⟨rfl, rfl⟩, rfl⟩

/-- Witness for C5: the operator-table complement relation applied to
the concrete needle `1` and list literal `(5, 2, 3, 17)` of the
conformance test. -/
theorem not_in_desugars_to_complement_witness :
    (cmpOp "not in").map (fun build => build (Expr.Literal (Value.int 1))
        (Expr.Literal (Value.tuple [Value.int 5, Value.int 2, Value.int 3, Value.int 17]))) =
      some (Expr.Complement (Expr.Membership (Expr.Literal (Value.int 1))
        (Expr.Literal (Value.tuple
          [Value.int 5, Value.int 2, Value.int 3, Value.int 17])))) ∧
    (cmpOp "in").map (fun build => build (Expr.Literal (Value.int 1))
        (Expr.Literal (Value.tuple [Value.int 5, Value.int 2, Value.int 3, Value.int 17]))) =
      some (Expr.Membership (Expr.Literal (Value.int 1))
        (Expr.Literal (Value.tuple
          [Value.int 5, Value.int 2, Value.int 3, Value.int 17]))) :=
  not_in_desugars_to_complement.1 (Expr.Literal (Value.int 1))
    (Expr.Literal (Value.tuple [Value.int 5, Value.int 2, Value.int 3, Value.int 17]))

/-- C6: a bare quantifier without a `matches`/`->` body is always a
parse error — for any field identifier and literal value, parsing
`any <field> is <value>` fails; the quantifier wrapper rejects every
parsed body that is not a `Let` node; and the concrete conformance-test
query `"any Process/command is 'init'"` raises a parse error. -/
theorem bare_quantifier_is_parse_error :
    (∀ (f : String) (v : Value) (p1 p2 p3 p4 : Nat),
        parseOr 64 [⟨TokenKind.kw, Value.str "any", p1⟩, ⟨TokenKind.ident, Value.str f, p2⟩,
            ⟨TokenKind.op, Value.str "is", p3⟩, ⟨TokenKind.lit, v, p4⟩] =
          Except.error ⟨some ⟨TokenKind.kw, Value.str "any", p1⟩,
            "quantifier must be followed by a matches subexpression"⟩) ∧
    (∀ (t : Token) (isEach : Bool) (e : Expr) (ts : List Token),
        (∀ a b, e ≠ Expr.Let a b) →
        wrapLet t isEach e ts =
          Except.error ⟨some t, "quantifier must be followed by a matches subexpression"⟩) ∧
    parseQuery "any Process/command is \x27init\x27" Params.nil =
      Except.error (QueryError.parse ⟨some ⟨TokenKind.kw, Value.str "any", 0⟩,
        "quantifier must be followed by a matches subexpression"⟩) := by
  refine ⟨fun _ _ _ _ _ _ => rfl, ?_, rfl⟩
  intro t isEach e ts hne
  cases e with
  | Let a b => exact absurd rfl (hne a b)
  | _ => rfl

/-- Witness for C6: the quantifier wrapper rejects the concrete
non-`Let` body of the conformance test. -/
theorem bare_quantifier_is_parse_error_witness :
    wrapLet ⟨TokenKind.kw, Value.str "any", 0⟩ false
        (Expr.Equivalence (Expr.Binding "Process/command") (Expr.Literal (Value.str "init")))
        [] =
      Except.error ⟨some ⟨TokenKind.kw, Value.str "any", 0⟩,
        "quantifier must be followed by a matches subexpression"⟩ :=
  bare_quantifier_is_parse_error.2.1 ⟨TokenKind.kw, Value.str "any", 0⟩ false
    (Expr.Equivalence (Expr.Binding "Process/command") (Expr.Literal (Value.str "init")))
    [] (by intro a b; exact fun h => Expr.noConfusion h)

/-- C7: a single-quoted string literal is scanned verbatim and stays a
string-typed literal token, never auto-coerced; and tokenizing
`"  15 0x15 '0x15' ' 52.6'"` yields exactly the four literal tokens
with values `15`, `21` (hex), `"0x15"` and `" 52.6"` in that order. -/
theorem tokenizer_literal_typing :
    (∀ (cs : List Char) (p : Nat) (t : Token) (cs' : List Char) (p' : Nat),
        nextTok ('\x27' :: cs) p = Except.ok (some (t, cs', p')) →
        t = ⟨TokenKind.lit,
             Value.str (String.mk (cs.takeWhile (fun d => d != '\x27'))), p⟩) ∧
    (tokenize "  15 0x15 \x270x15\x27 \x27 52.6\x27").map
        (fun ts => ts.map (fun t => (t.name, t.value))) =
      Except.ok [(TokenKind.lit, Value.int 15), (TokenKind.lit, Value.int 21),
        (TokenKind.lit, Value.str "0x15"), (TokenKind.lit, Value.str " 52.6")] := by
  refine ⟨?_, rfl⟩
  intro cs p t cs' p' h
  have h2 : (match cs.drop (cs.takeWhile (fun d => d != '\x27')).length with
      | [] => (Except.error ⟨p, "unterminated string literal"⟩ :
          Except LexError (Option (Token × List Char × Nat)))
      | _ :: rest' =>
          Except.ok (some (⟨TokenKind.lit,
            Value.str (String.mk (cs.takeWhile (fun d => d != '\x27'))), p⟩,
            rest', p + (cs.takeWhile (fun d => d != '\x27')).length + 2))) =
      Except.ok (some (t, cs', p')) := h
  cases hdrop : cs.drop (cs.takeWhile (fun d => d != '\x27')).length with
  | nil => rw [hdrop] at h2; exact absurd h2 (by simp)
  | cons d rest =>
      rw [hdrop] at h2
      simp only [Except.ok.injEq, Option.some.injEq, Prod.mk.injEq] at h2
      exact h2.1.symm

/-- Witness for C7: the verbatim-scan property applied to the concrete
quoted source fragment `'0x15'` — its contents stay a string. -/
theorem tokenizer_literal_typing_witness :
    (⟨TokenKind.lit, Value.str "0x15", 0⟩ : Token) =
      ⟨TokenKind.lit,
       Value.str (String.mk (("0x15\x27".toList).takeWhile (fun d => d != '\x27'))), 0⟩ :=
  tokenizer_literal_typing.1 "0x15\x27".toList 0
    ⟨TokenKind.lit, Value.str "0x15", 0⟩ [] 6 rfl

theorem substTokens_yields_literals (params : Params) :
    ∀ (ts : List Token) (i : Nat) (out : List Token),
      substTokens params i ts = Except.ok out →
      ∀ t' ∈ out, t'.name = TokenKind.lit ∨ t' ∈ ts := by
  intro ts
  induction ts with
  | nil =>
      intro i out h t' ht'
      simp only [substTokens] at h
      injection h with h
      subst h
      simp at ht'
  | cons t rest ih =>
      intro i out h t' ht'
      obtain ⟨tn, tv, tp⟩ := t
      by_cases hp : tn = TokenKind.param
      · subst hp
        cases tv with
        | str name =>
            simp only [substTokens, reduceIte] at h
            cases hl : lookupParam params i name ⟨TokenKind.param, Value.str name, tp⟩ with
            | error e => rw [hl] at h; exact Except.noConfusion h
            | ok v =>
                rw [hl] at h
                cases hs : substTokens params (if name == "" then i + 1 else i) rest with
                | error e => rw [hs] at h; exact Except.noConfusion h
                | ok outRest =>
                    rw [hs] at h
                    injection h with h
                    subst h
                    rcases List.mem_cons.mp ht' with hh | hh
                    · subst hh; exact Or.inl rfl
                    · rcases ih _ _ hs t' hh with hl' | hm
                      · exact Or.inl hl'
                      · exact Or.inr (List.mem_cons.mpr (Or.inr hm))
        | null => simp only [substTokens, reduceIte] at h; exact Except.noConfusion h
        | bool b => simp only [substTokens, reduceIte] at h; exact Except.noConfusion h
        | int n => simp only [substTokens, reduceIte] at h; exact Except.noConfusion h
        | float q => simp only [substTokens, reduceIte] at h; exact Except.noConfusion h
        | tuple vs => simp only [substTokens, reduceIte] at h; exact Except.noConfusion h
        | dict fs => simp only [substTokens, reduceIte] at h; exact Except.noConfusion h
        | sup vs => simp only [substTokens, reduceIte] at h; exact Except.noConfusion h
      · simp only [substTokens] at h
        rw [if_neg hp] at h
        cases hs : substTokens params i rest with
        | error e => rw [hs] at h; exact Except.noConfusion h
        | ok outRest =>
            rw [hs] at h
            injection h with h
            subst h
            rcases List.mem_cons.mp ht' with hh | hh
            · subst hh; exact Or.inr (List.mem_cons.mpr (Or.inl rfl))
            · rcases ih _ _ hs t' hh with hl' | hm
              · exact Or.inl hl'
              · exact Or.inr (List.mem_cons.mpr (Or.inr hm))

/-- The AST shared by the literal query `"Process/pid == 1"` and both
parameterised spellings of the `testTemplateReplacements` conformance
test. -/
def c4Ast : Expr :=
  Expr.Equivalence (Expr.Binding "Process/pid") (Expr.Literal (Value.int 1))

/-- C4: template parameters substitute only as `Literal` nodes.  The
substitution pass can only ever emit literal tokens for placeholders
(every output token is a literal or already appeared in the input);
positional and named substitution of `1` both yield the identical AST as
the literal query `"Process/pid == 1"`; a substituted param never
becomes a `Binding` — `"{foo} == 1"` with a params list raises a parse
error, while the same query with a params mapping yields a string
`Literal`, not a `Binding`. -/
theorem params_substitute_as_literals :
    (∀ (params : Params) (ts : List Token) (i : Nat) (out : List Token),
        substTokens params i ts = Except.ok out →
        ∀ t' ∈ out, t'.name = TokenKind.lit ∨ t' ∈ ts) ∧
    parseQuery "Process/pid == \x7b\x7d" (Params.positional [Value.int 1]) =
      Except.ok c4Ast ∧
    parseQuery "Process/pid == \x7bpid\x7d" (Params.named [("pid", Value.int 1)]) =
      Except.ok c4Ast ∧
    parseQuery "Process/pid == 1" Params.nil = Except.ok c4Ast ∧
    parseQuery "\x7bfoo\x7d == 1" (Params.positional [Value.str "Process/pid"]) =
      Except.error (QueryError.parse ⟨some ⟨TokenKind.param, Value.str "foo", 0⟩,
        "named placeholder with positional params"⟩) ∧
    parseQuery "\x7bfoo\x7d == 1" (Params.named [("foo", Value.str "Process/pid")]) =
      Except.ok (Expr.Equivalence (Expr.Literal (Value.str "Process/pid"))
        (Expr.Literal (Value.int 1))) :=
  ⟨fun params => substTokens_yields_literals params, rfl, rfl, rfl, rfl, rfl⟩

/-- Witness for C4: the substitution pass applied to one positional
placeholder token emits a literal token. -/
theorem params_substitute_as_literals_witness :
    (⟨TokenKind.lit, Value.int 1, 0⟩ : Token).name = TokenKind.lit ∨
      (⟨TokenKind.lit, Value.int 1, 0⟩ : Token) ∈
        [(⟨TokenKind.param, Value.str "", 0⟩ : Token)] :=
  params_substitute_as_literals.1 (Params.positional [Value.int 1])
    [⟨TokenKind.param, Value.str "", 0⟩] 0 [⟨TokenKind.lit, Value.int 1, 0⟩] rfl
    ⟨TokenKind.lit, Value.int 1, 0⟩ (List.mem_cons.mpr (Or.inl rfl))

/-- The token returned by the `(j + 1)`-th `next_token` call from a
given cursor state (so `nthNext 0` is the very next token). -/
def nthNext : Nat → Tokenizer → Except LexError (Option Token)
  | 0, s => (next_token s).map Prod.fst
  | Nat.succ n, s =>
    match next_token s with
    | Except.error e => Except.error e
    | Except.ok (_, s') => nthNext n s'

theorem fillPeek_current_token :
    ∀ (n k : Nat) (s : Tokenizer) (r : Option Token) (s' : Tokenizer),
      fillPeek n k s = Except.ok (r, s') → s'.current_token = s.current_token := by
  intro n
  induction n with
  | zero => intro k s r s' h; exact Except.noConfusion h
  | succ n ih =>
      intro k s r s' h
      simp only [fillPeek] at h
      by_cases hlen : s.lookahead.length < k
      · rw [if_pos hlen] at h
        cases hn : nextTok s.chars s.pos with
        | error e => rw [hn] at h; exact Except.noConfusion h
        | ok o =>
            rw [hn] at h
            cases o with
            | none =>
                injection h with h
                injection h with h1 h2
                subst h2
                rfl
            | some trip =>
                rcases trip with ⟨t, cs', p'⟩
                have h' : fillPeek n k
                    { s with chars := cs', pos := p', lookahead := s.lookahead ++ [t] } =
                    Except.ok (r, s') := h
                have hc := ih k _ r s' h'
                exact hc
      · rw [if_neg hlen] at h
        injection h with h
        injection h with h1 h2
        subst h2
        rfl

theorem fillPeek_preserves_next :
    ∀ (n k : Nat) (s : Tokenizer) (r : Option Token) (s' : Tokenizer),
      fillPeek n k s = Except.ok (r, s') →
      (next_token s').map Prod.fst = (next_token s).map Prod.fst := by
  intro n
  induction n with
  | zero => intro k s r s' h; exact Except.noConfusion h
  | succ n ih =>
      intro k s r s' h
      simp only [fillPeek] at h
      by_cases hlen : s.lookahead.length < k
      · rw [if_pos hlen] at h
        cases hn : nextTok s.chars s.pos with
        | error e => rw [hn] at h; exact Except.noConfusion h
        | ok o =>
            rw [hn] at h
            cases o with
            | none =>
                injection h with h
                injection h with h1 h2
                subst h2
                rfl
            | some trip =>
                rcases trip with ⟨t, cs', p'⟩
                have h' : fillPeek n k
                    { s with chars := cs', pos := p', lookahead := s.lookahead ++ [t] } =
                    Except.ok (r, s') := h
                have step := ih k _ r s' h'
                rw [step]
                cases hla : s.lookahead with
                | nil => simp only [next_token, hla, List.nil_append, hn, Except.map]
                | cons u us => simp only [next_token, hla, List.cons_append, Except.map]
      · rw [if_neg hlen] at h
        injection h with h
        injection h with h1 h2
        subst h2
        rfl

theorem fillPeek_cases :
    ∀ (n k : Nat) (s : Tokenizer) (r : Option Token) (s' : Tokenizer),
      fillPeek n k s = Except.ok (r, s') →
      (r = s'.lookahead.get? (k - 1) ∧ k ≤ s'.lookahead.length) ∨
        (r = Option.none ∧ s'.lookahead.length < k ∧
          nextTok s'.chars s'.pos = Except.ok Option.none) := by
  intro n
  induction n with
  | zero => intro k s r s' h; exact Except.noConfusion h
  | succ n ih =>
      intro k s r s' h
      simp only [fillPeek] at h
      by_cases hlen : s.lookahead.length < k
      · rw [if_pos hlen] at h
        cases hn : nextTok s.chars s.pos with
        | error e => rw [hn] at h; exact Except.noConfusion h
        | ok o =>
            rw [hn] at h
            cases o with
            | none =>
                injection h with h
                injection h with h1 h2
                subst h1; subst h2
                exact Or.inr ⟨rfl, hlen, hn⟩
            | some trip =>
                rcases trip with ⟨t, cs', p'⟩
                have h' : fillPeek n k
                    { s with chars := cs', pos := p', lookahead := s.lookahead ++ [t] } =
                    Except.ok (r, s') := h
                exact ih k _ r s' h'
      · rw [if_neg hlen] at h
        injection h with h
        injection h with h1 h2
        subst h1; subst h2
        exact Or.inl ⟨rfl, Nat.le_of_not_lt hlen⟩

theorem nthNext_of_lookahead :
    ∀ (j : Nat) (s : Tokenizer), j < s.lookahead.length →
      nthNext j s = Except.ok (s.lookahead.get? j) := by
  intro j
  induction j with
  | zero =>
      intro s hj
      cases hla : s.lookahead with
      | nil => rw [hla] at hj; exact absurd hj (by simp)
      | cons t rest => simp only [nthNext, next_token, hla, Except.map, List.get?]
  | succ j ih =>
      intro s hj
      cases hla : s.lookahead with
      | nil => rw [hla] at hj; exact absurd hj (by simp)
      | cons t rest =>
          rw [hla] at hj
          simp only [nthNext, next_token, hla, List.get?]
          exact ih { s with lookahead := rest, current_token := some t }
            (Nat.lt_of_succ_lt_succ hj)

theorem nthNext_exhausted :
    ∀ (j : Nat) (s : Tokenizer), s.lookahead.length ≤ j →
      nextTok s.chars s.pos = Except.ok Option.none →
      nthNext j s = Except.ok Option.none := by
  intro j
  induction j with
  | zero =>
      intro s hj hn
      cases hla : s.lookahead with
      | nil => simp only [nthNext, next_token, hla, hn, Except.map]
      | cons t rest => rw [hla] at hj; exact absurd hj (by simp)
  | succ j ih =>
      intro s hj hn
      cases hla : s.lookahead with
      | nil =>
          simp only [nthNext, next_token, hla, hn]
          exact ih { s with lookahead := [], current_token := Option.none } (by simp) hn
      | cons t rest =>
          rw [hla] at hj
          simp only [nthNext, next_token, hla]
          exact ih { s with lookahead := rest, current_token := some t }
            (by simpa using Nat.le_of_succ_le_succ hj) hn

/-- The token stream of the `testPeeking` conformance test, observed
through the cursor interface exactly as the test does: consume one
token, peek two ahead, peek twenty ahead, and read `current_token`
after each peek. -/
def c8Trace : Except LexError
    ((Option (TokenKind × Value)) × (Option Value) × (Option Token) × (Option Value)) :=
  match next_token (mkTokenizer "1 in (5, 10) == Process/pid") with
  | Except.error e => Except.error e
  | Except.ok (_, s1) =>
    match peek s1 2 with
    | Except.error e => Except.error e
    | Except.ok (p2, s2) =>
      match peek s2 20 with
      | Except.error e => Except.error e
      | Except.ok (p20, s3) =>
          Except.ok (p2.map (fun t => (t.name, t.value)),
            (s2.current_token.map Token.value), p20,
            (s3.current_token.map Token.value))

/-- C8: `peek` is non-mutating and total.  For every cursor state and
every `k`, a successful `peek k` leaves `current_token` unchanged, does
not advance the cursor (the next `next_token` returns the same token as
it would have without the peek), and returns exactly the token the
`k`-th subsequent `next_token` call will return — `none` when the
stream is exhausted before position `k`.  Concretely, on
`"1 in (5, 10) == Process/pid"` after one `next_token`, `peek 2` is the
lparen and `peek 20` is `none`, while `current_token` still holds the
value 1 after both peeks. -/
theorem peek_is_nonmutating_and_total :
    (∀ (s : Tokenizer) (k : Nat) (r : Option Token) (s' : Tokenizer),
        peek s k = Except.ok (r, s') → s'.current_token = s.current_token) ∧
    (∀ (s : Tokenizer) (k : Nat) (r : Option Token) (s' : Tokenizer),
        peek s k = Except.ok (r, s') →
        (next_token s').map Prod.fst = (next_token s).map Prod.fst) ∧
    (∀ (s : Tokenizer) (k : Nat) (r : Option Token) (s' : Tokenizer),
        1 ≤ k → peek s k = Except.ok (r, s') → nthNext (k - 1) s' = Except.ok r) ∧
    c8Trace = Except.ok (some (TokenKind.lparen, Value.str "("),
      some (Value.int 1), Option.none, some (Value.int 1)) := by
  refine ⟨?_, ?_, ?_, rfl⟩
  · intro s k r s' h
    exact fillPeek_current_token (k + 1) k s r s' h
  · intro s k r s' h
    exact fillPeek_preserves_next (k + 1) k s r s' h
  · intro s k r s' hk h
    rcases fillPeek_cases (k + 1) k s r s' h with ⟨hr, hle⟩ | ⟨hr, hlt, hend⟩
    · subst hr
      exact nthNext_of_lookahead (k - 1) s'
        (Nat.lt_of_lt_of_le (Nat.sub_lt (Nat.lt_of_lt_of_le Nat.zero_lt_one hk)
          Nat.zero_lt_one) hle)
    · subst hr
      exact nthNext_exhausted (k - 1) s' (Nat.le_of_lt_succ
        (Nat.lt_of_lt_of_le hlt (by omega))) hend

/-- The cursor state of the `testPeeking` conformance test after one
`next_token` on `"1 in (5, 10) == Process/pid"`: the literal `1` is the
current token. -/
def c8State1 : Tokenizer :=
  ⟨" in (5, 10) == Process/pid".toList, 1, [], some ⟨TokenKind.lit, Value.int 1, 0⟩⟩

/-- The cursor state of the `testPeeking` conformance test after
`peek 2`: the operator `in` and the lparen are buffered, and the
current token is still the literal `1`. -/
def c8State2 : Tokenizer :=
  ⟨"5, 10) == Process/pid".toList, 6,
   [⟨TokenKind.op, Value.str "in", 2⟩, ⟨TokenKind.lparen, Value.str "(", 5⟩],
   some ⟨TokenKind.lit, Value.int 1, 0⟩⟩

/-- Witness for C8: the frame condition applied to the concrete
`peek 2` of the conformance test, after one `next_token` on
`"1 in (5, 10) == Process/pid"`. -/
theorem peek_is_nonmutating_and_total_witness :
    c8State2.current_token = c8State1.current_token :=
  peek_is_nonmutating_and_total.1 c8State1 2
    (some ⟨TokenKind.lparen, Value.str "(", 5⟩) c8State2 rfl

/-- C9: division promotes to floating point.  A quotient with a float
operand is exact float division; an integer quotient whose result is
not an integer promotes to a float; and solving the parsed query
`"10.0 / 4"` returns the value `2.5` exactly. -/
theorem quotient_promotes_to_float :
    (∀ (qa : Rat) (b : Int), b ≠ 0 →
        evalQuotient (Value.float qa) (Value.int b) =
          Except.ok (Value.float (qa / (b : Rat)))) ∧
    (∀ a b : Int, b ≠ 0 → ¬ (b ∣ a) →
        evalQuotient (Value.int a) (Value.int b) =
          Except.ok (Value.float ((a : Rat) / (b : Rat)))) ∧
    parseQuery "10.0 / 4" Params.nil =
      Except.ok (Expr.Quotient (Expr.Literal (Value.float 10)) (Expr.Literal (Value.int 4))) ∧
    solve (Expr.Quotient (Expr.Literal (Value.float 10)) (Expr.Literal (Value.int 4)))
        (mockProcess (Value.int 1) Value.null Value.null) mockApp =
      Except.ok ⟨Value.float (5 / 2), Option.none⟩ ∧
    ((5 : Rat) / 2 = 2.5) := by
  refine ⟨?_, ?_, rfl, by with_unfolding_all rfl, by norm_num⟩
  · intro qa b hb
    simp only [evalQuotient, ratOfValue]
    rw [if_neg]
    simp only [beq_iff_eq]
    exact Int.cast_ne_zero.mpr hb
  · intro a b hb hdvd
    simp only [evalQuotient]
    rw [if_neg, if_neg]
    · simp only [beq_iff_eq]
      intro hmod
      exact hdvd (Int.dvd_of_emod_eq_zero hmod)
    · simp only [beq_iff_eq]
      exact hb

/-- Witness for C9: both promotion rules applied at the concrete
quotients `10.0 / 4` and `10 / 4`. -/
theorem quotient_promotes_to_float_witness :
    evalQuotient (Value.float 10) (Value.int 4) =
      Except.ok (Value.float ((10 : Rat) / (4 : Rat))) ∧
    evalQuotient (Value.int 10) (Value.int 4) =
      Except.ok (Value.float ((10 : Rat) / (4 : Rat))) :=
  ⟨quotient_promotes_to_float.1 10 4 (by norm_num),
   quotient_promotes_to_float.2.1 10 4 (by norm_num) (by decide)⟩

/-- The quantifier body of the `testDestructuring` conformance test:
`Process.pid == 1 or Process.command == 'foo'`. -/
def c10Body : Expr :=
  Expr.Union
    (Expr.Equivalence (Expr.Binding "Process.pid") (Expr.Literal (Value.int 1)))
    (Expr.Equivalence (Expr.Binding "Process.command") (Expr.Literal (Value.str "foo")))

/-- C10: the let-any quantifier also succeeds when the bound field
resolves to a single plain object rather than a superposition — the
solver's superposition view treats every non-superposition value as a
one-candidate collection, and solving the any-form of the
`testDestructuring` conformance test against a context whose
`Process.parent` is one nested container yields value `True`. -/
theorem letany_singleton_view :
    (∀ v : Value, (∀ vs, v ≠ Value.sup vs) → superpositionView v = [v]) ∧
    solve (Expr.LetAny (Expr.Binding "Process.parent") c10Body)
        (Value.dict [("Process", Value.dict [("parent",
          Value.dict [("Process", Value.dict [("pid", Value.int 1)])])])]) mockApp =
      Except.ok ⟨Value.bool true, some c10Body⟩ := by
  refine ⟨?_, rfl⟩
  intro v hv
  cases v with
  | sup vs => exact absurd rfl (hv vs)
  | _ => rfl

/-- Witness for C10: the one-candidate view of a concrete plain
container. -/
theorem letany_singleton_view_witness :
    superpositionView (Value.dict [("pid", Value.int 1)]) =
      [Value.dict [("pid", Value.int 1)]] :=
  letany_singleton_view.1 (Value.dict [("pid", Value.int 1)])
    (fun _ h => Value.noConfusion h)

end EFilter
